import Mathlib

/-
Verification of the timetable-checker core (src/timetable_checker.py).

The Python source is shallowly embedded below.  Python dictionaries are
modelled as insertion-ordered association lists (first-match lookup,
in-place update, append on fresh key), Python `range(a, b)` as `pyRange`
(over Nat) and `pyRangeI` (over Int, so that expressions such as
`7 - consecutive_len + 1` keep Python's signed arithmetic), Python string
scalars as `CellValue.vStr`, `None` cells as `CellValue.vNone`, and other
scalars as `CellValue.vOther` carrying their `str()` rendering.  Functions
that raise in Python (`detect_day_blocks`) return `Except`.
-/

namespace Timetable

/-- Python `range(a, b)` over naturals. -/
def pyRange (a b : Nat) : List Nat := (List.range (b - a)).map (fun i => a + i)

/-- Python `range(a, b)` over integers (empty when `b ≤ a`). -/
def pyRangeI (a b : Int) : List Int :=
  (List.range (b - a).toNat).map (fun i : Nat => a + (i : Int))

/-- First-match lookup in an association list: Python `d[k]` / `d.get(k)`. -/
def alookup {α β : Type} [DecidableEq α] : List (α × β) → α → Option β
  | [], _ => none
  | (k, v) :: rest, key => if k = key then some v else alookup rest key

/-- Python dict assignment `d[k] = v`: replace the value at the first
occurrence of `k` keeping its position, or append a fresh entry. -/
def setKey {α β : Type} [DecidableEq α] : List (α × β) → α → β → List (α × β)
  | [], k, v => [(k, v)]
  | (k', v') :: rest, k, v => if k' = k then (k', v) :: rest else (k', v') :: setKey rest k v

/-- A raw spreadsheet cell: absent, a string, or another scalar
(`vOther` carries the scalar's Python `str()` rendering). -/
inductive CellValue where
  | vNone : CellValue
  | vStr : String → CellValue
  | vOther : String → CellValue
deriving DecidableEq

/-- The Grid Source contract: a 1-indexed table with a known extent.
`cell r c` models `sheet.cell(row=r, column=c).value`. -/
structure Sheet where
  maxRow : Nat
  maxColumn : Nat
  cell : Nat → Nat → CellValue

/-- `DAYS_ORDER = ["월", "화", "수", "목", "금"]`. -/
def DAYS_ORDER : List String := ["월", "화", "수", "목", "금"]

/-- `DayBlock(day, start_col)`. -/
structure DayBlock where
  day : String
  start_col : Nat
deriving DecidableEq

/-- Python `str.strip()`: drop leading and trailing whitespace. -/
def pyStrip (s : String) : String :=
  ⟨((s.data.dropWhile Char.isWhitespace).reverse.dropWhile Char.isWhitespace).reverse⟩

/-- The day label recognised in a header cell, if any: the source strips a
string value and tests membership in `DAYS_ORDER`; non-string values never
compare equal to a day label. -/
def labelOf (v : CellValue) : Option String :=
  match v with
  | CellValue.vStr s =>
    let t := pyStrip s
    if t ∈ DAYS_ORDER then some t else none
  | _ => none

/-- One iteration of the column scan in `detect_day_blocks`: record a block
for a recognised label not yet seen (first-seen column wins). -/
def detectStep (sheet : Sheet) (st : List DayBlock × List String) (col : Nat) :
    List DayBlock × List String :=
  match labelOf (sheet.cell 2 col) with
  | some d => if d ∈ st.2 then st else (st.1 ++ [⟨d, col⟩], d :: st.2)
  | none => st

/-- The column scan of `detect_day_blocks` over columns `1..max_column`. -/
def detectScan (sheet : Sheet) : List DayBlock × List String :=
  (pyRange 1 (sheet.maxColumn + 1)).foldl (detectStep sheet) ([], [])

/-- `detect_day_blocks`: raises `ParseError` when no day block was found. -/
def detect_day_blocks (sheet : Sheet) : Except String (List DayBlock) :=
  let day_blocks := (detectScan sheet).1
  if day_blocks.isEmpty then Except.error ("요일 블록을 찾을 수 없습니다.")
  else Except.ok day_blocks

/-- The substitution `re.sub(r"\s*\([^)]*\)\s*$", "", name)`: remove one
trailing parenthesised group (whose content holds no closing parenthesis),
together with the whitespace around it, anchored at the end of the string;
the regex engine picks the leftmost opening parenthesis that yields such a
match.  Unchanged when no match exists. -/
def stripTrailingParen (s : String) : String :=
  let rev := s.data.reverse
  let r1 := rev.dropWhile Char.isWhitespace
  match r1 with
  | ')' :: restRev =>
    let run := restRev.takeWhile (fun c => c ≠ ')')
    if '(' ∈ run then
      let stem := restRev.drop run.length
      let pre := run.reverse.takeWhile (fun c => c ≠ '(')
      let kept := stem.reverse ++ pre
      ⟨(kept.reverse.dropWhile Char.isWhitespace).reverse⟩
    else s
  | _ => s

/-- `normalize_teacher_name`: strip, remove one trailing parenthesised
annotation, strip again. -/
def normalize_teacher_name (raw_name : String) : String :=
  pyStrip (stripTrailingParen (pyStrip raw_name))

/-- Does `l` start with `pat`? -/
def listStartsWith : List Char → List Char → Bool
  | _, [] => true
  | [], _ :: _ => false
  | c :: cs, p :: ps => c == p && listStartsWith cs ps

/-- Worker for `replaceList`; the counter skips the remaining characters of
a pattern occurrence that was already replaced. -/
def replaceAux (pat rep : List Char) : List Char → Nat → List Char
  | [], _ => []
  | _ :: rest, Nat.succ k => replaceAux pat rep rest k
  | c :: rest, 0 =>
    if listStartsWith (c :: rest) pat && !pat.isEmpty then
      rep ++ replaceAux pat rep rest (pat.length - 1)
    else c :: replaceAux pat rep rest 0

/-- Python `str.replace(pat, rep)` on character lists (non-overlapping,
left to right); all call sites use a non-empty `pat`. -/
def replaceList (pat rep l : List Char) : List Char :=
  replaceAux pat rep l 0

/-- `normalize_cell_text`: collapse the `_x000D_` carriage-return artifact,
then normalise the newline variants, in the source's order. -/
def normalize_cell_text (value : String) : String :=
  let t1 := replaceList (("_x000D_\n").data) (("\n").data) value.data
  let t2 := replaceList (("\r\n").data) (("\n").data) t1
  let t3 := replaceList (("\r").data) (("\n").data) t2
  ⟨t3⟩

/-- The first line of a text: Python `text.split("\n", 1)[0]`. -/
def firstLineChars (l : List Char) : List Char := l.takeWhile (fun c => c ≠ '\n')

/-- `parse_cell_to_class`: non-strings give `None`; for strings, normalise,
take the first line, and return its leading digit run after optional
whitespace (`re.match(r"^\s*(\d+)", first_line)`), else `None`. -/
def parse_cell_to_class (value : CellValue) : Option String :=
  match value with
  | CellValue.vStr s =>
    let text := (normalize_cell_text s).data
    let first_line := firstLineChars text
    let ds := (first_line.dropWhile Char.isWhitespace).takeWhile Char.isDigit
    if ds.isEmpty then none else some ⟨ds⟩
  | _ => none

/-- `format_class_code`: a 3-digit code renders as grade/class, any other
code renders parenthesised as-is. -/
def format_class_code (code : String) : String :=
  if code.length == 3 && code.data.all Char.isDigit then
    let grade := code.take 1
    let class_no := ((code.drop 1).toNat?).getD 0
    grade ++ "학년 " ++ toString class_no ++ "반(" ++ code ++ ")"
  else "(" ++ code ++ ")"

/-- Per-period entries of one weekday: keys are periods `1..7`. -/
abbrev PeriodMap := List (Int × Option String)

/-- One teacher's schedule: weekday name to period map. -/
abbrev DayMap := List (String × PeriodMap)

/-- The full teacher-to-schedule mapping. -/
abbrev Data := List (String × DayMap)

/-- Python `periods.get(p)` (default `None`). -/
def pget (periods : PeriodMap) (p : Int) : Option String :=
  (alookup periods p).getD none

/-- Python `day_map.get(day, {})`. -/
def dget (day_map : DayMap) (day : String) : PeriodMap :=
  (alookup day_map day).getD []

/-- The fresh schedule `{day: {p: None for p in range(1, 8)} for day in DAYS_ORDER}`. -/
def initSchedule : DayMap :=
  DAYS_ORDER.map (fun day => (day, (pyRangeI 1 8).map (fun p => (p, (none : Option String)))))

/-- The teacher identity of a data row, when the row is not skipped:
`None` cells and blank-after-strip strings are skipped, and so are rows
whose normalised name is empty (non-string scalars pass through `str()`,
carried by `vOther`). -/
def teacherId (sheet : Sheet) (row : Nat) : Option String :=
  match sheet.cell row 1 with
  | CellValue.vNone => none
  | CellValue.vStr s =>
    if (pyStrip s) = ("" : String) then none
    else
      let name := normalize_teacher_name s
      if name = ("" : String) then none else some name
  | CellValue.vOther r =>
    let name := normalize_teacher_name r
    if name = ("" : String) then none else some name

/-- The assignment `data[name][day][p] = v`.  The outer read `data[name]`
and the inner read `…[day]` would raise `KeyError` in Python were the key
absent; those branches are unreachable at the call sites (the teacher was
inserted just before, and located day blocks carry days of `DAYS_ORDER`,
which the fresh schedule initialises), and the model leaves `data`
unchanged there. -/
def setCell (data : Data) (name day : String) (p : Int) (v : Option String) : Data :=
  match alookup data name with
  | none => data
  | some dmap =>
    match alookup dmap day with
    | none => data
    | some ps => setKey data name (setKey dmap day (setKey ps p v))

/-- One data row of `parse_teacher_rows`: resolve the teacher, create the
fresh schedule on first sight, then store every block/period cell. -/
def processRow (sheet : Sheet) (day_blocks : List DayBlock) (data : Data) (row : Nat) : Data :=
  match teacherId sheet row with
  | none => data
  | some name =>
    let data1 := if (alookup data name).isSome then data else data ++ [(name, initSchedule)]
    day_blocks.foldl
      (fun d block =>
        (pyRangeI 1 8).foldl
          (fun d2 p =>
            setCell d2 name block.day p
              (parse_cell_to_class (sheet.cell row (block.start_col + (p - 1).toNat))))
          d)
      data1

/-- `parse_teacher_rows`: scan data rows `4..max_row`. -/
def parse_teacher_rows (sheet : Sheet) (day_blocks : List DayBlock) : Data :=
  (pyRange 4 (sheet.maxRow + 1)).foldl (processRow sheet day_blocks) []

/-- One Pattern-A match record `{day, start, end, class_code}` (`end` is
spelled `stop` here, `end` being reserved). -/
structure PatternAMatch where
  day : String
  start : Int
  stop : Int
  class_code : String
deriving DecidableEq

/-- Pattern-B/C summary state `{triggered, days}`. -/
structure BCSummary where
  triggered : Bool
  days : List String
deriving DecidableEq

/-- One teacher's structured summary. -/
structure TeacherSummary where
  patternA : List PatternAMatch
  patternB : BCSummary
  patternC : BCSummary
deriving DecidableEq

/-- The Pattern-A window `[periods.get(p) for p in range(start, start + consecutive_len)]`. -/
def windowOf (day_map : DayMap) (consecutive_len : Int) (day : String) (start : Int) :
    List (Option String) :=
  (pyRangeI start (start + consecutive_len)).map (fun p => pget (dget day_map day) p)

/-- One Pattern-A window test: skip when any period is `None`; match when
the window's value set has size one (all periods carry the same code). -/
def win (day_map : DayMap) (consecutive_len : Int) (day : String) (start : Int) :
    Option PatternAMatch :=
  let window := windowOf day_map consecutive_len day start
  if window.any (fun c => c.isNone) then none
  else
    match window with
    | [] => none
    | c0 :: rest =>
      if rest.all (fun c => decide (c = c0)) then
        match c0 with
        | some code => some ⟨day, start, start + consecutive_len - 1, code⟩
        | none => none
      else none

/-- The rendered Pattern-A message. -/
def patternAMsg (teacher : String) (m : PatternAMatch) : String :=
  "이 시간표는 " ++ teacher ++ " 선생님이 " ++ m.day ++ "요일에 " ++ toString m.start ++ "~" ++
    toString m.stop ++ "교시 연속 " ++ format_class_code m.class_code ++ "입니다."

/-- The deduplication key `(day, start, end, class_code)`. -/
def aKey (m : PatternAMatch) : String × Int × Int × String :=
  (m.day, m.start, m.stop, m.class_code)

/-- One iteration of Pattern A: test the window, skip exact-duplicate keys
(`seen_a`), otherwise append message, record and key. -/
def patternAStep (teacher : String) (day_map : DayMap) (consecutive_len : Int)
    (st : List String × List PatternAMatch × List (String × Int × Int × String))
    (pr : String × Int) :
    List String × List PatternAMatch × List (String × Int × Int × String) :=
  match win day_map consecutive_len pr.1 pr.2 with
  | none => st
  | some m =>
    if aKey m ∈ st.2.2 then st
    else (st.1 ++ [patternAMsg teacher m], st.2.1 ++ [m], st.2.2 ++ [aKey m])

/-- The iteration space of Pattern A: for each day of `DAYS_ORDER`, the
starts `range(1, max_start + 1)` with `max_start = 7 - consecutive_len + 1`. -/
def dayStartPairs (consecutive_len : Int) : List (String × Int) :=
  (DAYS_ORDER.map (fun day =>
    let max_start : Int := 7 - consecutive_len + 1
    (pyRangeI 1 (max_start + 1)).map (fun s => (day, s)))).flatten

/-- Pattern A for one teacher: messages, match records, and the `seen_a` keys. -/
def patternARun (teacher : String) (day_map : DayMap) (consecutive_len : Int) :
    List String × List PatternAMatch × List (String × Int × Int × String) :=
  (dayStartPairs consecutive_len).foldl (patternAStep teacher day_map consecutive_len) ([], [], [])

/-- Python `",".join(per list)`. -/
def commaJoin (l : List String) : String := String.intercalate ("," ) l

/-- The rendered Pattern-B message. -/
def patternBMsg (teacher : String) (min_days : Int) (target_periods : List Int)
    (matched_days : List String) : String :=
  "이 시간표는 " ++ teacher ++ " 선생님이 " ++ toString (DAYS_ORDER.length) ++ "일 중 " ++
    toString min_days ++ "일 이상 (" ++ commaJoin (target_periods.map (fun p => toString p)) ++
    ")교시에 수업이 있는 시간표입니다. (해당 요일: " ++ commaJoin matched_days ++ ")"

/-- The rendered Pattern-C message. -/
def patternCMsg (teacher : String) (min_days : Int) (matched_days : List String) : String :=
  "이 시간표는 " ++ teacher ++ " 선생님이 " ++ toString (DAYS_ORDER.length) ++ "일 중 " ++
    toString min_days ++ "일 이상 7교시에 수업이 있는 시간표입니다. (해당 요일: " ++
    commaJoin matched_days ++ ")"

/-- The three pattern rules for one teacher, in the source's order:
Pattern A, Pattern B (a day matches when every target period holds a
non-`None` code), Pattern C (period 7 only, when enabled). -/
def analyzeTeacher (teacher : String) (day_map : DayMap) (consecutive_len : Int)
    (target_periods : List Int) (min_days : Int) (check_period7 : Bool) :
    List String × TeacherSummary :=
  let a := patternARun teacher day_map consecutive_len
  let bDays := DAYS_ORDER.filter
    (fun day => target_periods.all (fun p => (pget (dget day_map day) p).isSome))
  let bRes : List String × BCSummary :=
    if min_days ≤ (bDays.length : Int) then
      ([patternBMsg teacher min_days target_periods bDays], { triggered := true, days := bDays })
    else ([], { triggered := false, days := [] })
  let cRes : List String × BCSummary :=
    if check_period7 then
      let cDays := DAYS_ORDER.filter (fun day => (pget (dget day_map day) 7).isSome)
      if min_days ≤ (cDays.length : Int) then
        ([patternCMsg teacher min_days cDays], { triggered := true, days := cDays })
      else ([], { triggered := false, days := [] })
    else ([], { triggered := false, days := [] })
  (a.1 ++ bRes.1 ++ cRes.1, { patternA := a.2.1, patternB := bRes.2, patternC := cRes.2 })

/-- One iteration of the main loop of `analyze_patterns` over
`data.items()`.  The loop only reads `data`; the third component threads
the mapping through the iteration, recording each entry exactly as the
loop observes it, so that the absence of writes is a provable statement
about the run rather than a convention. -/
def analyzeStep (consecutive_len : Int) (target_periods : List Int) (min_days : Int)
    (check_period7 : Bool)
    (st : List (String × List String) × List (String × TeacherSummary) × Data)
    (item : String × DayMap) :
    List (String × List String) × List (String × TeacherSummary) × Data :=
  let r := analyzeTeacher item.1 item.2 consecutive_len target_periods min_days check_period7
  (if r.1.isEmpty then st.1 else st.1 ++ [(item.1, r.1)],
   st.2.1 ++ [(item.1, r.2)],
   st.2.2 ++ [item])

/-- `analyze_patterns`, together with the observed input mapping. -/
def analyze_patterns_full (data : Data) (consecutive_len : Int) (target_periods : List Int)
    (min_days : Int) (check_period7 : Bool) :
    List (String × List String) × List (String × TeacherSummary) × Data :=
  data.foldl (analyzeStep consecutive_len target_periods min_days check_period7) ([], [], [])

/-- `analyze_patterns`: the `(messages, summary)` pair the source returns. -/
def analyze_patterns (data : Data) (consecutive_len : Int) (target_periods : List Int)
    (min_days : Int) (check_period7 : Bool) :
    List (String × List String) × List (String × TeacherSummary) :=
  ((analyze_patterns_full data consecutive_len target_periods min_days check_period7).1,
   (analyze_patterns_full data consecutive_len target_periods min_days check_period7).2.1)

/-- The summary component of `analyze_patterns`. -/
def summaryOf (data : Data) (consecutive_len : Int) (target_periods : List Int)
    (min_days : Int) (check_period7 : Bool) : List (String × TeacherSummary) :=
  (analyze_patterns data consecutive_len target_periods min_days check_period7).2

/-- The `FakeWorksheet` of the source's self-test harness: a literal grid,
out-of-range cells read as absent. -/
def fakeSheet (rows : List (List CellValue)) : Sheet :=
  { maxRow := rows.length
    maxColumn := (rows.map (fun r => r.length)).foldr max 0
    cell := fun r c => (rows.getD (r - 1) []).getD (c - 1) CellValue.vNone }

/-- Spec-side predicate: a day qualifies for Pattern B when every target
period holds a non-`None` class code that day — presence only, no equality
of the codes required. -/
def qualifyingDaysB (day_map : DayMap) (target_periods : List Int) : List String :=
  DAYS_ORDER.filter (fun day => decide (∀ p ∈ target_periods, pget (dget day_map day) p ≠ none))

/-- Spec-side predicate: a stored cell value is absent or a non-empty
decimal-digit class code. -/
def ClassCodeOk (v : Option String) : Prop :=
  v = none ∨ ∃ c : String, v = some c ∧ c ≠ ("" : String) ∧ c.data.all Char.isDigit

/-- Spec-side predicate: a period map holds exactly the keys `1..7`, every
value a legal class-code entry. -/
def PeriodsOk (ps : PeriodMap) : Prop :=
  ps.map Prod.fst = pyRangeI 1 8 ∧ ∀ pv ∈ ps, ClassCodeOk pv.2

/-- Spec-side predicate: a schedule holds exactly the five weekdays, each
with a legal period map. -/
def SchedOk (sched : DayMap) : Prop :=
  sched.map Prod.fst = DAYS_ORDER ∧ ∀ e ∈ sched, PeriodsOk e.2

/-- Spec-side predicate: every stored teacher schedule is legal. -/
def DataOk (data : Data) : Prop := ∀ e ∈ data, SchedOk e.2

/-- The findings-map entry one teacher contributes, if any (`messages`
only receives teachers with at least one message). -/
def msgEntry? (consecutive_len : Int) (target_periods : List Int) (min_days : Int)
    (check_period7 : Bool) (it : String × DayMap) : Option (String × List String) :=
  let r := analyzeTeacher it.1 it.2 consecutive_len target_periods min_days check_period7
  if r.1.isEmpty then none else some (it.1, r.1)

/-! ### Concrete grids and mappings used by the witnesses -/

/-- Concrete grid for the C4 witness: one teacher row, two located blocks. -/
def sheetC4 : Sheet := fakeSheet [
  [],
  [CellValue.vNone, CellValue.vStr ("월"), CellValue.vNone, CellValue.vNone, CellValue.vNone,
    CellValue.vNone, CellValue.vNone, CellValue.vNone, CellValue.vStr ("화")],
  [],
  [CellValue.vStr ("박지훈"), CellValue.vStr ("101"), CellValue.vStr ("102\n국어"),
    CellValue.vOther ("3"), CellValue.vStr ("국어")]]

/-- The day blocks of `sheetC4`. -/
def blocksC4 : List DayBlock := [⟨"월", 2⟩, ⟨"화", 9⟩]

/-- The schedule `parse_teacher_rows` builds for the C4 witness teacher. -/
def schedC4 : DayMap := (alookup (parse_teacher_rows sheetC4 blocksC4) ("박지훈")).getD []

/-- Header-row grid for the C5 witness: one recognised weekday label. -/
def sheetC5 : Sheet := fakeSheet [
  [],
  [CellValue.vStr ("제목"), CellValue.vStr (" 수 "), CellValue.vOther ("7")]]

/-- Concrete two-row grid for C7: the same teacher under two annotated
names. -/
def sheetC7 : Sheet := fakeSheet [
  [],
  [CellValue.vNone, CellValue.vStr ("월")],
  [],
  [CellValue.vStr ("김민수 (1)"), CellValue.vStr ("101\n국어")],
  [CellValue.vStr ("김민수(2)"), CellValue.vNone, CellValue.vStr ("202")]]

/-- Schedule for the C1 counterexample teacher. -/
def dmC1 : DayMap := [("월", [(1, some ("101"))])]

/-- Input mapping for the C1 counterexample. -/
def dataC1 : Data := [("김철수", dmC1)]

/-- Schedule for the C2 witness teacher. -/
def dmC2 : DayMap := [("월", [(1, some ("101"))]), ("화", [(1, some ("102"))])]

/-- Input mapping for the C2 witness. -/
def dataC2 : Data := [("정수진", dmC2)]

/-- Schedule for the C3 witness teacher. -/
def dmC3 : DayMap := [("월", [(1, some ("101")), (2, some ("101")), (3, some ("204"))])]

/-- Input mapping for the C3 witness. -/
def dataC3 : Data := [("이영희", dmC3)]

/-- Input mapping for the C9 witness. -/
def dataC9 : Data := [("최민호", [])]

/-- Schedule for the C10 witness teacher. -/
def dmC10 : DayMap := [("월", [(1, some ("101"))])]

/-- Input mapping for the C10 witness. -/
def dataC10 : Data := [("한서연", dmC10)]

/-! ### Helper lemmas -/

theorem mem_pyRange {a b x : Nat} : x ∈ pyRange a b ↔ a ≤ x ∧ x < b := by
  simp only [pyRange, List.mem_map, List.mem_range]
  constructor
  · rintro ⟨i, hi, rfl⟩; omega
  · intro h; exact ⟨x - a, by omega, by omega⟩

theorem mem_pyRangeI {a b x : Int} : x ∈ pyRangeI a b ↔ a ≤ x ∧ x < b := by
  simp only [pyRangeI, List.mem_map, List.mem_range]
  constructor
  · rintro ⟨i, hi, rfl⟩; omega
  · intro h; exact ⟨(x - a).toNat, by omega, by omega⟩

theorem nodup_pyRangeI (a b : Int) : (pyRangeI a b).Nodup := by
  refine List.Nodup.map ?_ (List.nodup_range _)
  intro i j hij
  dsimp only at hij
  omega

theorem length_pyRangeI (a b : Int) : (pyRangeI a b).length = (b - a).toNat := by
  simp [pyRangeI]

theorem foldl_invariant_mem {α β : Type} (P : α → Prop) (f : α → β → α) (l : List β) :
    ∀ init : α, P init → (∀ a b, b ∈ l → P a → P (f a b)) → P (l.foldl f init) := by
  induction l with
  | nil => intro init h0 _; simpa using h0
  | cons b rest ih =>
    intro init h0 hstep
    simp only [List.foldl_cons]
    exact ih (f init b) (hstep init b (by simp) h0)
      (fun a b' hb' ha => hstep a b' (by simp [hb']) ha)

theorem alookup_mem {α β : Type} [DecidableEq α] {l : List (α × β)} {k : α} {v : β}
    (h : alookup l k = some v) : (k, v) ∈ l := by
  induction l with
  | nil => simp [alookup] at h
  | cons e rest ih =>
    obtain ⟨k', v'⟩ := e
    by_cases hk : k' = k
    · subst hk
      simp only [alookup, if_true, eq_self_iff_true, Option.some.injEq] at h
      subst h
      exact List.mem_cons_self _ _
    · simp only [alookup, if_neg hk] at h
      exact List.mem_cons_of_mem _ (ih h)

theorem alookup_mem_keys {α β : Type} [DecidableEq α] {l : List (α × β)} {k : α} {v : β}
    (h : alookup l k = some v) : k ∈ l.map Prod.fst := by
  have := alookup_mem h
  exact List.mem_map.mpr ⟨(k, v), this, rfl⟩

theorem setKey_map_fst_of_mem {α β : Type} [DecidableEq α] {l : List (α × β)} {k : α} (v : β)
    (h : k ∈ l.map Prod.fst) : (setKey l k v).map Prod.fst = l.map Prod.fst := by
  induction l with
  | nil => simp at h
  | cons e rest ih =>
    obtain ⟨k', v'⟩ := e
    by_cases hk : k' = k
    · simp [setKey, hk]
    · simp only [List.map_cons, List.mem_cons] at h
      rcases h with h | h
      · exact absurd h.symm hk
      · simp [setKey, hk, ih h]

theorem mem_setKey {α β : Type} [DecidableEq α] {l : List (α × β)} {k : α} {v : β} {x : α × β}
    (h : x ∈ setKey l k v) : x ∈ l ∨ x = (k, v) := by
  induction l with
  | nil =>
    simp only [setKey, List.mem_singleton] at h
    exact Or.inr h
  | cons e rest ih =>
    obtain ⟨k', v'⟩ := e
    by_cases hk : k' = k
    · simp only [setKey, if_pos hk, List.mem_cons] at h
      rcases h with h | h
      · subst hk; exact Or.inr h
      · exact Or.inl (List.mem_cons_of_mem _ h)
    · simp only [setKey, if_neg hk, List.mem_cons] at h
      rcases h with h | h
      · exact Or.inl (by simp [h])
      · rcases ih h with h2 | h2
        · exact Or.inl (List.mem_cons_of_mem _ h2)
        · exact Or.inr h2

theorem alookup_map_snd {α β γ : Type} [DecidableEq α] (g : α → β → γ) (l : List (α × β))
    (t : α) :
    alookup (l.map (fun it => (it.1, g it.1 it.2))) t = (alookup l t).map (fun v => g t v) := by
  induction l with
  | nil => simp [alookup]
  | cons e rest ih =>
    obtain ⟨k, v⟩ := e
    by_cases hk : k = t
    · subst hk; simp [alookup]
    · simp [alookup, hk, ih]

/-! ### Day-Block Locator -/

theorem detectFold_fst_append (sheet : Sheet) (cols : List Nat) :
    ∀ (blocks : List DayBlock) (seen : List String),
      ∃ rest, (cols.foldl (detectStep sheet) (blocks, seen)).1 = blocks ++ rest := by
  induction cols with
  | nil => intro blocks seen; exact ⟨[], by simp⟩
  | cons c cs ih =>
    intro blocks seen
    simp only [List.foldl_cons, detectStep]
    cases hL : labelOf (sheet.cell 2 c) with
    | none => exact ih blocks seen
    | some d =>
      by_cases hd : d ∈ seen
      · simp only [if_pos hd]
        exact ih blocks seen
      · simp only [if_neg hd]
        obtain ⟨rest, hrest⟩ := ih (blocks ++ [⟨d, c⟩]) (d :: seen)
        exact ⟨⟨d, c⟩ :: rest, by simpa [List.append_assoc] using hrest⟩

theorem detectScan_nil_iff (sheet : Sheet) (cols : List Nat) :
    (cols.foldl (detectStep sheet) ([], [])).1 = [] ↔
      ∀ c ∈ cols, labelOf (sheet.cell 2 c) = none := by
  induction cols with
  | nil => simp
  | cons c cs ih =>
    simp only [List.foldl_cons, detectStep, List.forall_mem_cons]
    cases hL : labelOf (sheet.cell 2 c) with
    | none =>
      simpa using ih
    | some d =>
      show (List.foldl (detectStep sheet)
          (if d ∈ ([] : List String) then (([] : List DayBlock), ([] : List String))
            else ([] ++ [⟨d, c⟩], [d])) cs).1 = [] ↔
        some d = none ∧ ∀ x ∈ cs, labelOf (sheet.cell 2 x) = none
      rw [if_neg (by simp : ¬(d ∈ ([] : List String)))]
      simp only [List.nil_append]
      constructor
      · intro h
        obtain ⟨rest, hrest⟩ := detectFold_fst_append sheet cs [⟨d, c⟩] [d]
        rw [hrest] at h
        simp at h
      · rintro ⟨h1, _⟩
        simp at h1

/-- C5: the Day-Block Locator raises `LayoutError` exactly when the header
row (row 2) holds no recognised weekday label among columns
`1..max_column`; with at least one label present it returns the non-empty
block list instead (and in the error case no partial result escapes). -/
theorem detect_day_blocks_layout_error (sheet : Sheet) :
    (detect_day_blocks sheet = Except.error ("요일 블록을 찾을 수 없습니다.") ↔
      ∀ col, 1 ≤ col → col ≤ sheet.maxColumn → labelOf (sheet.cell 2 col) = none) ∧
    ((∃ col, 1 ≤ col ∧ col ≤ sheet.maxColumn ∧ labelOf (sheet.cell 2 col) ≠ none) →
      ∃ bs, detect_day_blocks sheet = Except.ok bs ∧ bs ≠ []) := by
  have key : (detectScan sheet).1 = [] ↔
      ∀ col, 1 ≤ col → col ≤ sheet.maxColumn → labelOf (sheet.cell 2 col) = none := by
    rw [detectScan, detectScan_nil_iff]
    constructor
    · intro h col h1 h2
      exact h col (mem_pyRange.mpr ⟨h1, by omega⟩)
    · intro h col hcol
      obtain ⟨h1, h2⟩ := mem_pyRange.mp hcol
      exact h col h1 (by omega)
  constructor
  · rw [← key]
    unfold detect_day_blocks
    by_cases hnil : (detectScan sheet).1 = []
    · simp [hnil]
    · simp [List.isEmpty_iff, hnil]
  · rintro ⟨col, h1, h2, h3⟩
    have hnil : (detectScan sheet).1 ≠ [] := by
      intro h
      exact h3 (key.mp h col h1 h2)
    refine ⟨(detectScan sheet).1, ?_, hnil⟩
    unfold detect_day_blocks
    simp [List.isEmpty_iff, hnil]

/-! ### Cell Normalizer and Teacher-Grid Builder -/

theorem classCodeOk_digits (l : List Char) :
    ClassCodeOk (if (l.takeWhile Char.isDigit).isEmpty then none
      else some ⟨l.takeWhile Char.isDigit⟩) := by
  by_cases h : (l.takeWhile Char.isDigit).isEmpty
  · rw [if_pos h]
    exact Or.inl rfl
  · rw [if_neg h]
    refine Or.inr ⟨_, rfl, ?_, ?_⟩
    · intro hc
      have hdata : l.takeWhile Char.isDigit = [] := congrArg String.data hc
      rw [hdata] at h
      exact h rfl
    · simp only [List.all_eq_true]
      intro c hc
      exact List.mem_takeWhile_imp hc

theorem parse_cell_shape (v : CellValue) : ClassCodeOk (parse_cell_to_class v) := by
  cases v with
  | vNone => exact Or.inl rfl
  | vOther r => exact Or.inl rfl
  | vStr s => exact classCodeOk_digits _

theorem initSchedule_ok : SchedOk initSchedule := by
  constructor
  · have hfun : Prod.fst ∘ (fun day : String =>
        (day, (pyRangeI 1 8).map (fun p => (p, (none : Option String))))) = id := rfl
    rw [initSchedule, List.map_map, hfun, List.map_id]
  · intro e he
    simp only [initSchedule, List.mem_map] at he
    obtain ⟨day, _, rfl⟩ := he
    constructor
    · have hfun : Prod.fst ∘ (fun p : Int => (p, (none : Option String))) = id := rfl
      rw [List.map_map, hfun, List.map_id]
    · intro pv hpv
      simp only [List.mem_map] at hpv
      obtain ⟨p, _, rfl⟩ := hpv
      exact Or.inl rfl

theorem setCell_ok {data : Data} {name day : String} {p : Int} {v : Option String}
    (hd : DataOk data) (hp : p ∈ pyRangeI 1 8) (hv : ClassCodeOk v) :
    DataOk (setCell data name day p v) := by
  unfold setCell
  cases hn : alookup data name with
  | none => exact hd
  | some dmap =>
    show DataOk (match alookup dmap day with
      | none => data
      | some ps => setKey data name (setKey dmap day (setKey ps p v)))
    cases hdy : alookup dmap day with
    | none => exact hd
    | some ps =>
      intro e he
      rcases mem_setKey he with he2 | he2
      · exact hd e he2
      · subst he2
        have hsd : SchedOk dmap := hd _ (alookup_mem hn)
        have hpo : PeriodsOk ps := hsd.2 _ (alookup_mem hdy)
        constructor
        · rw [setKey_map_fst_of_mem _ (alookup_mem_keys hdy)]
          exact hsd.1
        · intro e2 he3
          rcases mem_setKey he3 with he4 | he4
          · exact hsd.2 _ he4
          · subst he4
            constructor
            · rw [setKey_map_fst_of_mem _ (hpo.1.symm ▸ hp)]
              exact hpo.1
            · intro pv hpv
              rcases mem_setKey hpv with h5 | h5
              · exact hpo.2 _ h5
              · subst h5; exact hv

theorem processRow_ok {sheet : Sheet} {day_blocks : List DayBlock} {data : Data} {row : Nat}
    (hd : DataOk data) : DataOk (processRow sheet day_blocks data row) := by
  unfold processRow
  cases teacherId sheet row with
  | none => exact hd
  | some name =>
    have hd1 : DataOk (if (alookup data name).isSome then data
        else data ++ [(name, initSchedule)]) := by
      by_cases h : (alookup data name).isSome
      · simpa [h] using hd
      · simp only [h, if_false]
        intro e he
        rcases List.mem_append.mp he with he2 | he2
        · exact hd e he2
        · simp only [List.mem_singleton] at he2
          subst he2
          exact initSchedule_ok
    refine foldl_invariant_mem DataOk _ _ _ hd1 ?_
    intro d block _ hdp
    refine foldl_invariant_mem DataOk _ _ _ hdp ?_
    intro d2 p hp hdp2
    exact setCell_ok hdp2 hp (parse_cell_shape _)

theorem parse_teacher_rows_ok (sheet : Sheet) (day_blocks : List DayBlock) :
    DataOk (parse_teacher_rows sheet day_blocks) := by
  unfold parse_teacher_rows
  refine foldl_invariant_mem DataOk _ _ _ ?_ ?_
  · intro e he; simp at he
  · intro a b _ ha; exact processRow_ok ha

/-- C4: every teacher discovered by the Teacher-Grid Builder ends up with a
schedule carrying exactly the five weekdays, each with exactly the period
keys `1..7` — 35 entries in total — and every entry is `None` or a
non-empty decimal-digit class code, whichever day blocks were located and
whatever the cells held. -/
theorem parse_teacher_rows_schedule_complete (sheet : Sheet) (day_blocks : List DayBlock)
    (hb : ∀ b ∈ day_blocks, b.day ∈ DAYS_ORDER)
    (t : String) (sched : DayMap)
    (hl : alookup (parse_teacher_rows sheet day_blocks) t = some sched) :
    sched.map Prod.fst = DAYS_ORDER ∧
    (∀ e ∈ sched, e.2.map Prod.fst = pyRangeI 1 8) ∧
    (sched.map (fun e => e.2.length)).sum = 35 ∧
    (∀ e ∈ sched, ∀ pv ∈ e.2, pv.2 = none ∨
      ∃ c : String, pv.2 = some c ∧ c ≠ ("" : String) ∧ c.data.all Char.isDigit) := by
  have hok : SchedOk sched := parse_teacher_rows_ok sheet day_blocks _ (alookup_mem hl)
  refine ⟨hok.1, fun e he => (hok.2 e he).1, ?_, fun e he pv hpv => (hok.2 e he).2 pv hpv⟩
  have hlen : sched.length = 5 := by
    have := congrArg List.length hok.1
    simpa using this
  have h7 : ∀ x ∈ sched.map (fun e => e.2.length), x = 7 := by
    intro x hx
    simp only [List.mem_map] at hx
    obtain ⟨e, he, rfl⟩ := hx
    have := congrArg List.length (hok.2 e he).1
    simpa [length_pyRangeI] using this
  have hmap : sched.map (fun e => e.2.length) = List.replicate 5 7 := by
    have := List.eq_replicate_of_mem h7
    simpa [hlen] using this
  rw [hmap]
  decide

/-- Witness for C4 at a concrete grid. -/
theorem parse_teacher_rows_schedule_complete_witness :
    ((∀ b ∈ blocksC4, b.day ∈ DAYS_ORDER) ∧
      alookup (parse_teacher_rows sheetC4 blocksC4) ("박지훈") = some schedC4) ∧
    (schedC4.map Prod.fst = DAYS_ORDER ∧
      (∀ e ∈ schedC4, e.2.map Prod.fst = pyRangeI 1 8) ∧
      (schedC4.map (fun e => e.2.length)).sum = 35 ∧
      (∀ e ∈ schedC4, ∀ pv ∈ e.2, pv.2 = none ∨
        ∃ c : String, pv.2 = some c ∧ c ≠ ("" : String) ∧ c.data.all Char.isDigit)) :=
  ⟨⟨by decide, by decide⟩,
    parse_teacher_rows_schedule_complete sheetC4 blocksC4 (by decide) ("박지훈") schedC4
      (by decide)⟩

/-- Witness for C5 at a concrete grid. -/
theorem detect_day_blocks_layout_error_witness :
    (detect_day_blocks sheetC5 = Except.error ("요일 블록을 찾을 수 없습니다.") ↔
      ∀ col, 1 ≤ col → col ≤ sheetC5.maxColumn → labelOf (sheetC5.cell 2 col) = none) ∧
    ((∃ col, 1 ≤ col ∧ col ≤ sheetC5.maxColumn ∧ labelOf (sheetC5.cell 2 col) ≠ none) →
      ∃ bs, detect_day_blocks sheetC5 = Except.ok bs ∧ bs ≠ []) :=
  detect_day_blocks_layout_error sheetC5

/-- C6: the Cell Normalizer is total — every non-string value yields
`None`, every result is `None` or a non-empty decimal-digit class code,
and on strings it normalises the carriage-return artifact and newline
variants, keeps the first line, and extracts the leading digit run after
optional whitespace. -/
theorem parse_cell_to_class_total (v : CellValue) :
    parse_cell_to_class CellValue.vNone = none ∧
    (∀ r : String, parse_cell_to_class (CellValue.vOther r) = none) ∧
    (parse_cell_to_class v = none ∨
      ∃ c : String, parse_cell_to_class v = some c ∧ c ≠ ("" : String) ∧
        c.data.all Char.isDigit) ∧
    (∀ s : String, parse_cell_to_class (CellValue.vStr s) =
      (if ((((firstLineChars (normalize_cell_text s).data).dropWhile
            Char.isWhitespace).takeWhile Char.isDigit)).isEmpty then none
        else some ⟨((firstLineChars (normalize_cell_text s).data).dropWhile
            Char.isWhitespace).takeWhile Char.isDigit⟩)) :=
  ⟨rfl, fun _ => rfl, parse_cell_shape v, fun _ => rfl⟩

/-- C7: teacher-name normalisation strips one trailing parenthesised
annotation, so the two rows share one identity and their grids accumulate
into a single schedule under that key (later rows overwrite earlier
values). -/
theorem teacher_name_merge :
    normalize_teacher_name ("김민수 (1)") = ("김민수" : String) ∧
    normalize_teacher_name ("김민수(2)") = ("김민수" : String) ∧
    detect_day_blocks sheetC7 = Except.ok [⟨"월", 2⟩] ∧
    (parse_teacher_rows sheetC7 [⟨"월", 2⟩]).map Prod.fst = [("김민수" : String)] ∧
    pget (dget ((alookup (parse_teacher_rows sheetC7 [⟨"월", 2⟩]) ("김민수")).getD [])
      ("월")) 2 = some ("202") ∧
    pget (dget ((alookup (parse_teacher_rows sheetC7 [⟨"월", 2⟩]) ("김민수")).getD [])
      ("월")) 1 = none :=
  ⟨by decide, by decide, by rfl, by decide, by decide, by decide⟩

/-! ### Pattern Analyzer: the main loop -/

theorem analyze_fold_eq (cl : Int) (tp : List Int) (md : Int) (c7 : Bool) (data : Data) :
    ∀ (ms : List (String × List String)) (ss : List (String × TeacherSummary)) (ds : Data),
      data.foldl (analyzeStep cl tp md c7) (ms, ss, ds) =
        (ms ++ data.filterMap (msgEntry? cl tp md c7),
         ss ++ data.map (fun it => (it.1, (analyzeTeacher it.1 it.2 cl tp md c7).2)),
         ds ++ data) := by
  induction data with
  | nil => intro ms ss ds; simp
  | cons it rest ih =>
    intro ms ss ds
    simp only [List.foldl_cons, analyzeStep]
    by_cases h : (analyzeTeacher it.1 it.2 cl tp md c7).1.isEmpty
    · rw [if_pos h, ih]
      simp [msgEntry?, h, List.append_assoc]
    · rw [if_neg h, ih]
      simp [msgEntry?, h, List.append_assoc]

theorem analyze_full_components (data : Data) (cl : Int) (tp : List Int) (md : Int)
    (c7 : Bool) :
    analyze_patterns_full data cl tp md c7 =
      (data.filterMap (msgEntry? cl tp md c7),
       data.map (fun it => (it.1, (analyzeTeacher it.1 it.2 cl tp md c7).2)),
       data) := by
  unfold analyze_patterns_full
  rw [analyze_fold_eq]
  simp

theorem summaryOf_eq (data : Data) (cl : Int) (tp : List Int) (md : Int) (c7 : Bool) :
    summaryOf data cl tp md c7 =
      data.map (fun it => (it.1, (analyzeTeacher it.1 it.2 cl tp md c7).2)) := by
  unfold summaryOf analyze_patterns
  rw [analyze_full_components]

theorem alookup_summaryOf {data : Data} {cl : Int} {tp : List Int} {md : Int} {c7 : Bool}
    {t : String} {dm : DayMap} (hl : alookup data t = some dm) :
    alookup (summaryOf data cl tp md c7) t = some (analyzeTeacher t dm cl tp md c7).2 := by
  rw [summaryOf_eq]
  rw [alookup_map_snd (fun a b => (analyzeTeacher a b cl tp md c7).2) data t]
  rw [hl]
  rfl

/-! ### Pattern Analyzer: Pattern A -/

theorem windowOf_forall {dm : DayMap} {cl : Int} {day : String} {s : Int} {c : String} :
    (∀ x ∈ windowOf dm cl day s, x = some c) ↔
      ∀ p : Int, s ≤ p → p < s + cl → pget (dget dm day) p = some c := by
  unfold windowOf
  constructor
  · intro h p h1 h2
    exact h _ (List.mem_map.mpr ⟨p, mem_pyRangeI.mpr ⟨h1, by omega⟩, rfl⟩)
  · rintro h x hx
    obtain ⟨p, hp, rfl⟩ := List.mem_map.mp hx
    obtain ⟨h1, h2⟩ := mem_pyRangeI.mp hp
    exact h p h1 (by omega)

theorem windowOf_ne_nil {dm : DayMap} {cl : Int} {day : String} {s : Int} (hcl : 1 ≤ cl) :
    windowOf dm cl day s ≠ [] := by
  unfold windowOf
  intro h
  have h2 := congrArg List.length h
  simp only [List.length_map, length_pyRangeI, List.length_nil] at h2
  omega

theorem win_day_start {dm : DayMap} {cl : Int} {day : String} {s : Int} {m : PatternAMatch}
    (h : win dm cl day s = some m) : m.day = day ∧ m.start = s := by
  simp only [win] at h
  split at h
  · exact absurd h (by simp)
  · split at h
    · exact absurd h (by simp)
    · split at h
      · split at h
        · injection h with h2
          subst h2
          exact ⟨rfl, rfl⟩
        · exact absurd h (by simp)
      · exact absurd h (by simp)

theorem win_eq_some {dm : DayMap} {cl : Int} {day : String} {s : Int} (hcl : 1 ≤ cl)
    (m : PatternAMatch) :
    win dm cl day s = some m ↔
      m.day = day ∧ m.start = s ∧ m.stop = s + cl - 1 ∧
        ∀ p : Int, s ≤ p → p < s + cl → pget (dget dm day) p = some m.class_code := by
  rw [show (∀ p : Int, s ≤ p → p < s + cl → pget (dget dm day) p = some m.class_code) =
      (∀ x ∈ windowOf dm cl day s, x = some m.class_code) from
    propext windowOf_forall.symm]
  simp only [win]
  cases hw : windowOf dm cl day s with
  | nil => exact absurd hw (windowOf_ne_nil hcl)
  | cons c0 rest =>
    by_cases hAny : (c0 :: rest).any (fun c => c.isNone) = true
    · rw [if_pos hAny]
      constructor
      · intro h; exact absurd h (by simp)
      · rintro ⟨_, _, _, hall⟩
        exfalso
        obtain ⟨x, hx, hxn⟩ := List.any_eq_true.mp hAny
        rw [hall x hx] at hxn
        simp at hxn
    · rw [if_neg hAny]
      by_cases hAll : rest.all (fun c => decide (c = c0)) = true
      · simp only [hAll, if_true]
        cases c0 with
        | none =>
          constructor
          · intro h; exact absurd h (by simp)
          · rintro ⟨_, _, _, hall⟩
            exfalso
            have := hall none (List.mem_cons_self _ _)
            simp at this
        | some code =>
          constructor
          · intro h
            injection h with h2
            subst h2
            refine ⟨rfl, rfl, rfl, ?_⟩
            intro x hx
            rcases List.mem_cons.mp hx with hx | hx
            · rw [hx]
            · have h3 := List.all_eq_true.mp hAll x hx
              rw [decide_eq_true_eq] at h3
              rw [h3]
          · rintro ⟨hd, hs, he, hall⟩
            have hc0 := hall (some code) (List.mem_cons_self _ _)
            cases m with
            | mk mday mstart mstop mcode =>
              simp only at hd hs he hc0
              injection hc0 with hc0'
              subst hd
              subst hs
              subst he
              subst hc0'
              rfl
      · simp only [hAll, if_false]
        have hne : ¬(rest.all (fun c => decide (c = c0)) = true) := hAll
        constructor
        · intro h; exact absurd h (by simp)
        · rintro ⟨_, _, _, hall⟩
          exfalso
          apply hne
          rw [List.all_eq_true]
          intro x hx
          rw [decide_eq_true_eq]
          rw [hall x (List.mem_cons_of_mem _ hx), hall c0 (List.mem_cons_self _ _)]

theorem mem_dayStartPairs {cl : Int} {pr : String × Int} :
    pr ∈ dayStartPairs cl ↔ pr.1 ∈ DAYS_ORDER ∧ 1 ≤ pr.2 ∧ pr.2 < 7 - cl + 2 := by
  unfold dayStartPairs
  rw [List.mem_flatten]
  constructor
  · rintro ⟨l, hl, hpr⟩
    simp only [List.mem_map] at hl
    obtain ⟨day, hday, rfl⟩ := hl
    simp only [List.mem_map] at hpr
    obtain ⟨s, hs, rfl⟩ := hpr
    obtain ⟨h1, h2⟩ := mem_pyRangeI.mp hs
    exact ⟨hday, h1, by omega⟩
  · rintro ⟨h1, h2, h3⟩
    refine ⟨(pyRangeI 1 (7 - cl + 1 + 1)).map (fun s => (pr.1, s)), ?_, ?_⟩
    · exact List.mem_map.mpr ⟨pr.1, h1, rfl⟩
    · exact List.mem_map.mpr ⟨pr.2, mem_pyRangeI.mpr ⟨h2, by omega⟩, rfl⟩

theorem nodup_dayStartPairs (cl : Int) : (dayStartPairs cl).Nodup := by
  unfold dayStartPairs
  rw [List.nodup_flatten]
  constructor
  · intro l hl
    simp only [List.mem_map] at hl
    obtain ⟨day, _, rfl⟩ := hl
    exact List.Nodup.map (fun a b hab => by injection hab) (nodup_pyRangeI _ _)
  · rw [List.pairwise_map]
    have hnd : DAYS_ORDER.Nodup := by decide
    refine hnd.imp ?_
    intro d1 d2 hne x hx1 hx2
    simp only [List.mem_map] at hx1 hx2
    obtain ⟨s1, _, rfl⟩ := hx1
    obtain ⟨s2, _, heq⟩ := hx2
    injection heq with heq1 heq2
    exact hne heq1.symm

theorem patternAFold_eq (teacher : String) (dm : DayMap) (cl : Int)
    (pairs : List (String × Int)) :
    ∀ (ms : List String) (rs : List PatternAMatch)
      (sn : List (String × Int × Int × String)),
      pairs.Nodup →
      (∀ k ∈ sn, ∀ pr ∈ pairs, ¬(k.1 = pr.1 ∧ k.2.1 = pr.2)) →
      pairs.foldl (patternAStep teacher dm cl) (ms, rs, sn) =
        (ms ++ pairs.filterMap (fun pr => (win dm cl pr.1 pr.2).map (patternAMsg teacher)),
         rs ++ pairs.filterMap (fun pr => win dm cl pr.1 pr.2),
         sn ++ pairs.filterMap (fun pr => (win dm cl pr.1 pr.2).map aKey)) := by
  induction pairs with
  | nil => intro ms rs sn _ _; simp
  | cons pr rest ih =>
    intro ms rs sn hnd hseen
    simp only [List.foldl_cons, patternAStep]
    cases hw : win dm cl pr.1 pr.2 with
    | none =>
      rw [ih ms rs sn (List.Nodup.of_cons hnd)
        (fun k hk pr' hpr' => hseen k hk pr' (List.mem_cons_of_mem _ hpr'))]
      simp [List.filterMap_cons, hw]
    | some m =>
      obtain ⟨hmd, hms⟩ := win_day_start hw
      have hkey : aKey m ∉ sn := by
        intro hk
        exact hseen _ hk pr (List.mem_cons_self _ _) ⟨hmd, hms⟩
      show List.foldl (patternAStep teacher dm cl)
        (if aKey m ∈ sn then (ms, rs, sn)
          else (ms ++ [patternAMsg teacher m], rs ++ [m], sn ++ [aKey m])) rest = _
      rw [if_neg hkey]
      rw [ih (ms ++ [patternAMsg teacher m]) (rs ++ [m]) (sn ++ [aKey m])
        (List.Nodup.of_cons hnd) ?_]
      · simp [List.filterMap_cons, hw, List.append_assoc]
      · intro k hk pr' hpr'
        rcases List.mem_append.mp hk with hk | hk
        · exact hseen k hk pr' (List.mem_cons_of_mem _ hpr')
        · simp only [List.mem_singleton] at hk
          subst hk
          rintro ⟨h1, h2⟩
          have hpp : pr' = pr := by
            have e1 : pr'.1 = pr.1 := by rw [← h1, ← hmd]; rfl
            have e2 : pr'.2 = pr.2 := by rw [← h2, ← hms]; rfl
            exact Prod.ext e1 e2
          rw [hpp] at hpr'
          exact (List.nodup_cons.mp hnd).1 hpr'

theorem patternARun_eq (teacher : String) (dm : DayMap) (cl : Int) :
    patternARun teacher dm cl =
      ((dayStartPairs cl).filterMap (fun pr => (win dm cl pr.1 pr.2).map (patternAMsg teacher)),
       (dayStartPairs cl).filterMap (fun pr => win dm cl pr.1 pr.2),
       (dayStartPairs cl).filterMap (fun pr => (win dm cl pr.1 pr.2).map aKey)) := by
  unfold patternARun
  rw [patternAFold_eq teacher dm cl _ [] [] [] (nodup_dayStartPairs cl) (by simp)]
  simp

theorem analyzeTeacher_patternA (t : String) (dm : DayMap) (cl : Int) (tp : List Int)
    (md : Int) (c7 : Bool) :
    (analyzeTeacher t dm cl tp md c7).2.patternA =
      (dayStartPairs cl).filterMap (fun pr => win dm cl pr.1 pr.2) := by
  simp only [analyzeTeacher, patternARun_eq]

theorem qualifyingDaysB_eq (dm : DayMap) (tp : List Int) :
    qualifyingDaysB dm tp =
      DAYS_ORDER.filter (fun day => tp.all (fun p => (pget (dget dm day) p).isSome)) := by
  unfold qualifyingDaysB
  refine List.filter_congr ?_
  intro day _
  rw [Bool.eq_iff_iff]
  simp [List.all_eq_true, Option.isSome_iff_ne_none]

theorem analyzeTeacher_patternB (t : String) (dm : DayMap) (cl : Int) (tp : List Int)
    (md : Int) (c7 : Bool) :
    (analyzeTeacher t dm cl tp md c7).2.patternB =
      (if md ≤ ((DAYS_ORDER.filter
          (fun day => tp.all (fun p => (pget (dget dm day) p).isSome))).length : Int)
        then { triggered := true,
               days := DAYS_ORDER.filter
                 (fun day => tp.all (fun p => (pget (dget dm day) p).isSome)) }
        else { triggered := false, days := [] }) := by
  by_cases h : md ≤ ((DAYS_ORDER.filter
      (fun day => tp.all (fun p => (pget (dget dm day) p).isSome))).length : Int)
  · simp only [analyzeTeacher, if_pos h]
  · simp only [analyzeTeacher, if_neg h]

/-! ### Claims about the Pattern Analyzer -/

/-- C8: `analyze_patterns` never mutates its input — the mapping it
observes while iterating `data.items()` is identical, entry for entry, to
the mapping it was given; the analyzer only reads the schedules. -/
theorem analyze_patterns_reads_only (data : Data) (consecutive_len : Int)
    (target_periods : List Int) (min_days : Int) (check_period7 : Bool) :
    (analyze_patterns_full data consecutive_len target_periods min_days check_period7).2.2 =
      data := by
  rw [analyze_full_components]

/-- C1 counterexample: with `targetPeriods = []` and `minDays = 0`, both
outside the stated constraints, `analyze_patterns` raises no
`ConfigurationError` (none exists in the code): the run completes, the
teacher row is scanned and a triggered Pattern-B finding is produced, so
nothing was rejected at the boundary. -/
theorem no_rejection_of_invalid_config :
    summaryOf dataC1 4 [] 0 false =
      [(("김철수"), ⟨[], ⟨true, DAYS_ORDER⟩, ⟨false, []⟩⟩)] ∧
    (analyze_patterns dataC1 4 [] 0 false).1.map Prod.fst = [("김철수" : String)] :=
  ⟨by decide, by decide⟩

/-- C1 amended: `analyze_patterns` performs no configuration validation at
all — for every configuration, in or out of range, analysis runs to
completion over every teacher and yields one summary entry per teacher. -/
theorem analyze_patterns_accepts_any_config (data : Data) (consecutive_len : Int)
    (target_periods : List Int) (min_days : Int) (check_period7 : Bool) :
    (summaryOf data consecutive_len target_periods min_days check_period7).map Prod.fst =
      data.map Prod.fst := by
  rw [summaryOf_eq, List.map_map]
  rfl

/-- C2: Pattern B triggers if and only if the number of qualifying days —
days on which every target period holds a non-`None` code, presence only —
is at least `minDays`; exactly `minDays` qualifying days triggers it,
`minDays − 1` does not, and the triggered state lists the qualifying days. -/
theorem patternB_triggers_iff (data : Data) (consecutive_len : Int)
    (target_periods : List Int) (min_days : Int) (check_period7 : Bool)
    (t : String) (dm : DayMap)
    (hl : alookup data t = some dm) (htp : target_periods ≠ []) :
    ∃ ts : TeacherSummary,
      alookup (summaryOf data consecutive_len target_periods min_days check_period7) t =
        some ts ∧
      (ts.patternB.triggered = true ↔
        min_days ≤ ((qualifyingDaysB dm target_periods).length : Int)) ∧
      (((qualifyingDaysB dm target_periods).length : Int) = min_days →
        ts.patternB.triggered = true) ∧
      (((qualifyingDaysB dm target_periods).length : Int) = min_days - 1 →
        ts.patternB.triggered = false) ∧
      (ts.patternB.triggered = true →
        ts.patternB.days = qualifyingDaysB dm target_periods) := by
  refine ⟨_, alookup_summaryOf hl, ?_⟩
  rw [qualifyingDaysB_eq, analyzeTeacher_patternB]
  by_cases h : min_days ≤ ((DAYS_ORDER.filter
      (fun day => target_periods.all (fun p => (pget (dget dm day) p).isSome))).length : Int)
  · rw [if_pos h]
    refine ⟨by simpa using h, fun _ => rfl, ?_, fun _ => rfl⟩
    intro hlen
    exfalso
    omega
  · rw [if_neg h]
    refine ⟨by simpa using h, ?_, fun _ => rfl, ?_⟩
    · intro hlen
      exfalso
      exact h (by omega)
    · intro hfalse
      exact absurd hfalse (by simp)

/-- Witness for C2 at a concrete mapping with exactly `minDays`
qualifying days. -/
theorem patternB_triggers_iff_witness :
    ∃ ts : TeacherSummary,
      alookup (summaryOf dataC2 4 [1] 2 false) ("정수진") = some ts ∧
      (ts.patternB.triggered = true ↔ 2 ≤ ((qualifyingDaysB dmC2 [1]).length : Int)) ∧
      (((qualifyingDaysB dmC2 [1]).length : Int) = 2 → ts.patternB.triggered = true) ∧
      (((qualifyingDaysB dmC2 [1]).length : Int) = 2 - 1 → ts.patternB.triggered = false) ∧
      (ts.patternB.triggered = true → ts.patternB.days = qualifyingDaysB dmC2 [1]) :=
  patternB_triggers_iff dataC2 4 [1] 2 false ("정수진") dmC2 (by decide) (by decide)

/-- C3: for a teacher and `consecutiveLength ≥ 1`, Pattern A's match list
holds `(day, s, e, c)` exactly when `day` is one of the five weekdays, the
window starting at `s ≥ 1` ends at `e = s + consecutiveLength − 1 ≤ 7`,
and every period of the window holds the same code `c` (in particular no
`None`); the list carries no exact-duplicate records, while each distinct
valid start is its own finding. -/
theorem patternA_matches_exactly (data : Data) (consecutive_len : Int)
    (target_periods : List Int) (min_days : Int) (check_period7 : Bool)
    (t : String) (dm : DayMap)
    (hl : alookup data t = some dm) (hcl : 1 ≤ consecutive_len) :
    ∃ ts : TeacherSummary,
      alookup (summaryOf data consecutive_len target_periods min_days check_period7) t =
        some ts ∧
      (∀ (day : String) (s e : Int) (c : String),
        (⟨day, s, e, c⟩ : PatternAMatch) ∈ ts.patternA ↔
          day ∈ DAYS_ORDER ∧ 1 ≤ s ∧ e = s + consecutive_len - 1 ∧ e ≤ 7 ∧
            ∀ p : Int, s ≤ p → p ≤ e → pget (dget dm day) p = some c) ∧
      ts.patternA.Nodup := by
  refine ⟨_, alookup_summaryOf hl, ?_, ?_⟩
  · intro day s e c
    rw [analyzeTeacher_patternA, List.mem_filterMap]
    constructor
    · rintro ⟨pr, hpr, hw⟩
      obtain ⟨hmem, h1, h2⟩ := mem_dayStartPairs.mp hpr
      obtain ⟨hd, hs, he, hall⟩ := (win_eq_some hcl _).mp hw
      simp only at hd hs he hall
      subst hd
      subst hs
      refine ⟨hmem, h1, he, by omega, ?_⟩
      intro p hp1 hp2
      exact hall p hp1 (by omega)
    · rintro ⟨hday, hs1, he, he7, hall⟩
      refine ⟨(day, s), mem_dayStartPairs.mpr ⟨hday, hs1, by omega⟩, ?_⟩
      rw [win_eq_some hcl]
      refine ⟨rfl, rfl, by simpa using he, ?_⟩
      intro p hp1 hp2
      exact hall p hp1 (by omega)
  · rw [analyzeTeacher_patternA]
    refine List.Nodup.filterMap ?_ (nodup_dayStartPairs consecutive_len)
    intro a a' b hb hb'
    obtain ⟨h1d, h1s⟩ := win_day_start (Option.mem_def.mp hb)
    obtain ⟨h2d, h2s⟩ := win_day_start (Option.mem_def.mp hb')
    exact Prod.ext (h1d.symm.trans h2d) (h1s.symm.trans h2s)

/-- Witness for C3 at a concrete mapping, `consecutiveLength = 2`. -/
theorem patternA_matches_exactly_witness :
    ∃ ts : TeacherSummary,
      alookup (summaryOf dataC3 2 [1] 1 false) ("이영희") = some ts ∧
      (∀ (day : String) (s e : Int) (c : String),
        (⟨day, s, e, c⟩ : PatternAMatch) ∈ ts.patternA ↔
          day ∈ DAYS_ORDER ∧ 1 ≤ s ∧ e = s + 2 - 1 ∧ e ≤ 7 ∧
            ∀ p : Int, s ≤ p → p ≤ e → pget (dget dmC3 day) p = some c) ∧
      ts.patternA.Nodup :=
  patternA_matches_exactly dataC3 2 [1] 1 false ("이영희") dmC3 (by decide) (by decide)

/-- C9: with `targetPeriods = []`, `analyze_patterns` raises nothing and
every day qualifies vacuously for Pattern B, so with `minDays ≤ 5` the
pattern triggers for every teacher with all five days listed. -/
theorem patternB_vacuous_on_empty_targets (data : Data) (consecutive_len : Int)
    (min_days : Int) (check_period7 : Bool) (t : String) (dm : DayMap)
    (hl : alookup data t = some dm) (hmd : min_days ≤ 5) :
    ∃ ts : TeacherSummary,
      alookup (summaryOf data consecutive_len [] min_days check_period7) t = some ts ∧
      ts.patternB.triggered = true ∧ ts.patternB.days = DAYS_ORDER := by
  have hB : (analyzeTeacher t dm consecutive_len [] min_days check_period7).2.patternB =
      { triggered := true, days := DAYS_ORDER } := by
    rw [analyzeTeacher_patternB]
    have hfilter : DAYS_ORDER.filter
        (fun day => ([] : List Int).all (fun p => (pget (dget dm day) p).isSome)) =
        DAYS_ORDER := by
      simp
    rw [hfilter]
    rw [if_pos (by simpa [DAYS_ORDER] using hmd)]
  exact ⟨_, alookup_summaryOf hl, by rw [hB], by rw [hB]⟩

/-- Witness for C9 at a concrete mapping with an empty schedule. -/
theorem patternB_vacuous_on_empty_targets_witness :
    ∃ ts : TeacherSummary,
      alookup (summaryOf dataC9 4 [] 3 false) ("최민호") = some ts ∧
      ts.patternB.triggered = true ∧ ts.patternB.days = DAYS_ORDER :=
  patternB_vacuous_on_empty_targets dataC9 4 3 false ("최민호") [] (by decide) (by decide)

/-- C10: with `consecutiveLength > 7`, `analyze_patterns` raises nothing
and Pattern A evaluates no window at all — no start satisfies
`s + consecutiveLength − 1 ≤ 7` — so the Pattern-A message list and match
list are both empty for every teacher. -/
theorem patternA_empty_when_window_too_long (data : Data) (consecutive_len : Int)
    (target_periods : List Int) (min_days : Int) (check_period7 : Bool)
    (t : String) (dm : DayMap)
    (hl : alookup data t = some dm) (hcl : 7 < consecutive_len) :
    (patternARun t dm consecutive_len).1 = [] ∧
    (patternARun t dm consecutive_len).2.1 = [] ∧
    ∃ ts : TeacherSummary,
      alookup (summaryOf data consecutive_len target_periods min_days check_period7) t =
        some ts ∧ ts.patternA = [] := by
  have hpairs : dayStartPairs consecutive_len = [] := by
    have hrange : pyRangeI 1 (7 - consecutive_len + 1 + 1) = [] := by
      unfold pyRangeI
      have h0 : (7 - consecutive_len + 1 + 1 - 1).toNat = 0 := by omega
      rw [h0]
      rfl
    rw [List.eq_nil_iff_forall_not_mem]
    intro x hx
    rw [dayStartPairs, List.mem_flatten] at hx
    obtain ⟨l, hl2, hxl⟩ := hx
    simp only [List.mem_map] at hl2
    obtain ⟨day, _, rfl⟩ := hl2
    simp only [hrange, List.map_nil, List.not_mem_nil] at hxl
  have hrun : patternARun t dm consecutive_len = ([], [], []) := by
    unfold patternARun
    rw [hpairs]
    rfl
  refine ⟨by rw [hrun], by rw [hrun], _, alookup_summaryOf hl, ?_⟩
  rw [analyzeTeacher_patternA, hpairs]
  rfl

/-- Witness for C10 at a concrete mapping, `consecutiveLength = 8`. -/
theorem patternA_empty_when_window_too_long_witness :
    (patternARun ("한서연") dmC10 8).1 = [] ∧
    (patternARun ("한서연") dmC10 8).2.1 = [] ∧
    ∃ ts : TeacherSummary,
      alookup (summaryOf dataC10 8 [1] 3 true) ("한서연") = some ts ∧ ts.patternA = [] :=
  patternA_empty_when_window_too_long dataC10 8 [1] 3 true ("한서연") dmC10
    (by decide) (by decide)

end Timetable
